import Mathlib

/-!
# Verification of the IDFix TLS server core (TLSServer.cpp / TLSSocket.h)

Shallow embedding of the TLS connection-multiplexing engine of the
`idfix-protocols` repository: the `TLSSocket` connection object
(`TLSSocket.h`, inline implementation) and the `TLSServer` facade,
multiplexer loop and registry (`TLSServer.cpp`, `TLSServer.h`).

Modelling conventions:

* Machine state that the claims mention is carried explicitly
  (`TLSSocket` and `TLSServer` structures mirroring the C++ data members).
* Calls into the TLS library and the operating system are oracles: their
  integer results are parameters of the embedded functions
  (e.g. the result of each `SSL_read` together with the subsequent
  `SSL_pending` answer is one `ReadStep`).
* Externally observable actions (library calls, event-sink callbacks,
  registry mutations) are logged as a `List Effect` returned alongside the
  new state.  Each lock-protected critical section of the source becomes
  one atomic step of the model.
* The C sentinel descriptor `-1` is kept as the integer `-1`
  (`socketDescriptor : Int`), exactly as in the source.
-/

namespace IDFixProtocols

/-- Observable actions of the connection engine: calls across the TLS
library boundary, event-sink callbacks, and registry mutations. -/
inductive Effect where
  /-- a call to `SSL_accept` (handshake traffic on the wire) -/
  | sslAcceptCall
  /-- the server-level event handler's `tlsNewConnection` callback -/
  | newConnectionEvent
  /-- the connection-level `socketBytesReceived` callback, with the byte
      count the delivered buffer reports -/
  | bytesReceivedEvent (len : Nat)
  /-- the connection-level `socketDisconnected` callback -/
  | disconnectedEvent
  /-- an erase of this connection's registry entry (`_socketMap.erase`
      together with `FD_CLR`, performed by `TLSServer::removeSocket`) -/
  | registryErase
  /-- a call to `SSL_shutdown` -/
  | sslShutdown
  /-- the `::close` of the raw descriptor -/
  | closeDescriptor
  /-- a call to `SSL_free` releasing the TLS session handle -/
  | sslFree
  /-- a marker for an invocation of `TLSServer::shutdown` -/
  | shutdownCalled
deriving Repr, DecidableEq

/-- The mutable state of one `TLSSocket` (data members of `TLSSocket.h`):
the raw descriptor (`-1` once invalidated), whether the owner back-pointer
`_owner` is still set, the `_sslAccepted` handshake flag, whether a
connection-level `_eventHandler` is attached, and whether `SSL_free` has
already been called on `_tlsPeer` (the handle is dangling afterwards). -/
structure TLSSocket where
  socketDescriptor : Int
  owner : Bool
  sslAccepted : Bool
  eventHandler : Bool
  tlsFreed : Bool
deriving Repr, DecidableEq

/-- `SSL_write` at the library boundary: on a live session handle it
returns the library's result (an oracle value); on a handle already
released by `SSL_free` the call dereferences freed memory, which is
undefined behaviour — modelled as `Except.error`. -/
def sslWriteCall (freed : Bool) (libResult : Int) : Except Unit Int :=
  if freed then Except.error () else Except.ok libResult

/-- `TLSSocket::write(bytes, len)`: takes the connection lock and returns
`SSL_write(_tlsPeer, bytes, len)` directly — the source performs no check
of `_socketDescriptor` or of the session handle's validity. -/
def TLSSocket.write (libResult : Int) (s : TLSSocket) : Except Unit Int :=
  sslWriteCall s.tlsFreed libResult

/-- `TLSServer::sendNewConnectionEvent`: under the server lock, the
event handler is invoked only if one is set and `_serverIsRunning`
still holds. -/
def sendNewConnectionEvent (serverHandler serverRunning : Bool) : List Effect :=
  if serverHandler && serverRunning then [Effect.newConnectionEvent] else []

/-- `TLSSocket::acceptSSL`: runs `SSL_accept` (oracle `handshakeOK`).
On failure the connection-level event handler is cleared and `-2` is
returned; on success `_sslAccepted` is set and, if the owner back-pointer
is still valid, the server's `sendNewConnectionEvent` runs. -/
def TLSSocket.acceptSSL (handshakeOK serverRunning serverHandler : Bool)
    (s : TLSSocket) : TLSSocket × List Effect × Int :=
  if !handshakeOK then
    ({ s with eventHandler := false }, [Effect.sslAcceptCall], -2)
  else
    let s1 := { s with sslAccepted := true }
    let evs := if s1.owner then sendNewConnectionEvent serverHandler serverRunning else []
    (s1, Effect.sslAcceptCall :: evs, 1)

/-- One iteration's worth of oracle answers for the read loop of
`TLSSocket::socketReadyRead`: the value returned by `SSL_read` and the
value `SSL_pending` reports immediately afterwards. -/
structure ReadStep where
  result : Int
  pending : Nat
deriving Repr, DecidableEq

/-- The `do … while (pendingBytes > 0)` read loop of
`TLSSocket::socketReadyRead`, with `bytesRead` the running byte count.
A non-positive `SSL_read` result delivers the bytes accumulated so far
(if any, and if an event handler is attached) and returns the failing
result; otherwise the loop continues while `SSL_pending` is positive and
finally delivers the whole accumulated buffer in a single
`socketBytesReceived` call.  `none` means the oracle list was exhausted
before the loop finished. -/
def readLoop (handler : Bool) : List ReadStep → Nat → Option (Int × List Effect)
  | [], _ => none
  | step :: rest, bytesRead =>
    if step.result ≤ 0 then
      if bytesRead ≠ 0 ∧ handler then
        some (step.result, [Effect.bytesReceivedEvent bytesRead])
      else
        some (step.result, [])
    else
      if step.pending > 0 then
        readLoop handler rest (bytesRead + step.result.toNat)
      else
        if handler then
          some (step.result,
            [Effect.bytesReceivedEvent (bytesRead + step.result.toNat)])
        else some (step.result, [])

/-- `TLSSocket::socketReadyRead`: if the TLS handshake has not yet been
performed (`_sslAccepted` false) it runs `acceptSSL` and returns its
outcome instead of reading; otherwise it runs the read loop. -/
def TLSSocket.socketReadyRead (handshakeOK serverRunning serverHandler : Bool)
    (steps : List ReadStep) (s : TLSSocket) :
    Option (TLSSocket × List Effect × Int) :=
  if !s.sslAccepted then
    some (s.acceptSSL handshakeOK serverRunning serverHandler)
  else
    match readLoop s.eventHandler steps 0 with
    | none => none
    | some (r, effs) => some (s, effs, r)

/-- `TLSSocket::close`: a no-op if `_socketDescriptor` is already `-1`.
Otherwise: if the owner back-pointer is set, `TLSServer::removeSocket`
runs, which — only while the server is running — erases the registry
entry and releases the owner pointer; then `SSL_shutdown` runs if the
handshake had completed; the raw descriptor is shut down, closed and set
to `-1`; `SSL_free` releases the session handle; finally, outside the
lock, the disconnect callback fires if an event handler is attached.
The returned `Bool` records whether the registry erase happened. -/
def TLSSocket.close (serverRunning : Bool) (s : TLSSocket) :
    TLSSocket × Bool × List Effect :=
  if s.socketDescriptor = -1 then (s, false, [])
  else
    let removed := s.owner && serverRunning
    let s1 := if removed then { s with owner := false } else s
    let effs1 := if removed then [Effect.registryErase] else []
    let effs2 := if s1.sslAccepted then [Effect.sslShutdown] else []
    let s2 := { s1 with socketDescriptor := -1, tlsFreed := true }
    let effs3 := if s2.eventHandler then [Effect.disconnectedEvent] else []
    (s2, removed,
      effs1 ++ effs2 ++ [Effect.closeDescriptor, Effect.sslFree] ++ effs3)

/-- Lookup in the descriptor → socket map (`_socketMap.at` /
`_socketMap.find`): value of the first entry with the given key. -/
def findSocket (d : Nat) : List (Nat × TLSSocket) → Option TLSSocket
  | [] => none
  | p :: ps => if p.1 = d then some p.2 else findSocket d ps

/-- In-place mutation of the socket object stored under key `d` (the map
stores shared pointers; mutating the pointee updates what the map sees). -/
def updateSocket (d : Nat) (sock : TLSSocket) :
    List (Nat × TLSSocket) → List (Nat × TLSSocket)
  | [] => []
  | p :: ps => if p.1 = d then (d, sock) :: ps else p :: updateSocket d sock ps

/-- The mutable state of one `TLSServer` (data members of `TLSServer.h`):
the `_serverIsRunning` / `_serverIsShutdown` flags, the listening
descriptor number `_serverSocket` together with whether it is currently a
valid open descriptor, the `fd_set _activeDescriptors` interest set, the
`_socketMap` registry, and whether a server-level `_eventHandler` is set. -/
structure TLSServer where
  serverIsRunning : Bool
  serverIsShutdown : Bool
  serverSocket : Nat
  serverSocketValid : Bool
  activeDescriptors : List Nat
  socketMap : List (Nat × TLSSocket)
  eventHandler : Bool
deriving Repr, DecidableEq

/-- A freshly constructed `TLSServer` (after `init`): not running,
`_serverIsShutdown` initialised to `true`, empty registry and interest
set. `listenDescriptor` is the descriptor number the OS will hand out
for the listening socket; `handler` records whether the constructor
received an event handler. -/
def initialServer (listenDescriptor : Nat) (handler : Bool) : TLSServer :=
  { serverIsRunning := false, serverIsShutdown := true,
    serverSocket := listenDescriptor, serverSocketValid := false,
    activeDescriptors := [], socketMap := [], eventHandler := handler }

/-- `TLSServer::listen(port)`: fails immediately (state untouched) unless
`_serverIsShutdown` holds; then creates, binds and listens on the server
socket (oracles `sockOK`, `bindOK`, `listenOK`), failing with the socket
closed again on any error.  On success it marks the server running,
clears `_serverIsShutdown`, and starts the loop task, whose first action
(`run`) initialises the interest set to contain exactly the listening
descriptor.  Returns the new state and the boolean result. -/
def TLSServer.listen (s : TLSServer) (sockOK bindOK listenOK : Bool) :
    TLSServer × Bool :=
  if !s.serverIsShutdown then (s, false)
  else if !sockOK then ({ s with serverSocketValid := false }, false)
  else if !bindOK then ({ s with serverSocketValid := false }, false)
  else if !listenOK then ({ s with serverSocketValid := false }, false)
  else ({ s with serverIsRunning := true, serverIsShutdown := false,
                 serverSocketValid := true,
                 activeDescriptors := [s.serverSocket] }, true)

/-- `TLSServer::shutdown`: under the server lock, if the server is
running and not already shut down, it clears `_serverIsRunning` and
closes the listening descriptor; otherwise it does nothing.  The
`shutdownCalled` marker records the invocation in the effect log. -/
def TLSServer.shutdown (s : TLSServer) : TLSServer × List Effect :=
  if s.serverIsRunning && !s.serverIsShutdown then
    ({ s with serverIsRunning := false, serverSocketValid := false },
      [Effect.shutdownCalled])
  else (s, [Effect.shutdownCalled])

/-- The loop's reaction to `select() < 0`: if the server is still marked
running the failure was unexpected, so the loop clears `_serverIsRunning`
and closes the listening descriptor; either way it exits. -/
def TLSServer.selectFailed (s : TLSServer) : TLSServer × List Effect :=
  if s.serverIsRunning then
    ({ s with serverIsRunning := false, serverSocketValid := false }, [])
  else (s, [])

/-- The socket object created for a freshly accepted connection:
descriptor as handed out by `accept`, owner back-pointer set, handshake
not yet performed, no connection-level event handler yet. -/
def newSocket (d : Nat) : TLSSocket :=
  { socketDescriptor := (d : Int), owner := true, sslAccepted := false,
    eventHandler := false, tlsFreed := false }

/-- The accept branch of `TLSServer::run`: wraps the new descriptor in a
`TLSSocket` and, in one critical section, inserts it into `_socketMap`
(`std::map::insert`, which leaves an existing entry alone) and sets its
bit in `_activeDescriptors`.  `SSL_accept` is deliberately not called
here and no event is sent. -/
def TLSServer.acceptConnection (s : TLSServer) (d : Nat) :
    TLSServer × List Effect :=
  let m := if (findSocket d s.socketMap).isSome then s.socketMap
           else s.socketMap ++ [(d, newSocket d)]
  let a := if d ∈ s.activeDescriptors then s.activeDescriptors
           else s.activeDescriptors ++ [d]
  ({ s with socketMap := m, activeDescriptors := a }, [])

/-- `TLSSocket::close` of the connection registered under key `d`, seen
from the whole-system state: `removeSocket`, when it runs (owner set and
server running), clears the interest bit and erases the map entry — both
addressed by the socket's current `_socketDescriptor` value, exactly as
in the source; otherwise the entry stays and the (now invalidated)
socket object is updated in place. -/
def TLSServer.closeSocket (s : TLSServer) (d : Nat) : TLSServer × List Effect :=
  match findSocket d s.socketMap with
  | none => (s, [])
  | some sock =>
    let c := TLSSocket.close s.serverIsRunning sock
    if c.2.1 then
      ({ s with
          activeDescriptors :=
            s.activeDescriptors.filter (fun a => (a : Int) ≠ sock.socketDescriptor),
          socketMap :=
            s.socketMap.filter (fun p => (p.1 : Int) ≠ sock.socketDescriptor) },
        c.2.2)
    else
      ({ s with socketMap := updateSocket d c.1 s.socketMap }, c.2.2)

/-- The per-descriptor dispatch of `TLSServer::run`: a readable
descriptor's socket gets `socketReadyRead`; a non-positive result makes
the loop close the socket.  A descriptor with no registry entry, or an
exhausted read oracle, leaves the state unchanged. -/
def TLSServer.readyRead (s : TLSServer) (d : Nat) (handshakeOK : Bool)
    (steps : List ReadStep) : TLSServer × List Effect :=
  match findSocket d s.socketMap with
  | none => (s, [])
  | some sock =>
    match sock.socketReadyRead handshakeOK s.serverIsRunning s.eventHandler steps with
    | none => (s, [])
    | some (sock1, effs, r) =>
      let s1 := { s with socketMap := updateSocket d sock1 s.socketMap }
      if r ≤ 0 then
        let c := s1.closeSocket d
        (c.1, effs ++ c.2)
      else (s1, effs)

/-- `TLSSocket::setEventHandler` on the connection registered under `d`
(the event sink attaches itself after the new-connection event). -/
def TLSServer.setSocketEventHandler (s : TLSServer) (d : Nat) :
    TLSServer × List Effect :=
  match findSocket d s.socketMap with
  | none => (s, [])
  | some sock =>
    ({ s with socketMap := updateSocket d { sock with eventHandler := true } s.socketMap },
      [])

/-- One entry of the cleanup loop in `TLSServer::stopTask`: clear the
interest bit addressed by the socket's current `_socketDescriptor`,
release the owner pointer, then close the socket. -/
def drainStep (acc : TLSServer × List Effect) (p : Nat × TLSSocket) :
    TLSServer × List Effect :=
  let sock := { p.2 with owner := false }
  let c := TLSSocket.close acc.1.serverIsRunning sock
  ({ acc.1 with
      activeDescriptors :=
        acc.1.activeDescriptors.filter (fun a => (a : Int) ≠ p.2.socketDescriptor) },
    acc.2 ++ c.2.2)

/-- `TLSServer::stopTask`: under the server lock, drain every remaining
registered connection (interest bit cleared, owner released, socket
closed) and finally clear `_socketMap`. -/
def TLSServer.stopTask (s : TLSServer) : TLSServer × List Effect :=
  let f := s.socketMap.foldl drainStep (s, [])
  ({ f.1 with socketMap := [] }, f.2)

/-- The operations (one per lock-protected critical section) that act on
one `TLSServer` instance during an execution, each with the oracle values
it consumes. -/
inductive ServerOp where
  | listenOp (sockOK bindOK listenOK : Bool)
  | shutdownOp
  | selectFailOp
  | acceptOp (d : Nat)
  | readyOp (d : Nat) (handshakeOK : Bool) (steps : List ReadStep)
  | closeOp (d : Nat)
  | setHandlerOp (d : Nat)
  | stopTaskOp
deriving Repr, DecidableEq

/-- Apply one operation to a server state, yielding the new state and the
effects of the step. -/
def stepOp (op : ServerOp) (s : TLSServer) : TLSServer × List Effect :=
  match op with
  | .listenOp a b c => ((s.listen a b c).1, [])
  | .shutdownOp => s.shutdown
  | .selectFailOp => s.selectFailed
  | .acceptOp d => s.acceptConnection d
  | .readyOp d hs st => s.readyRead d hs st
  | .closeOp d => s.closeSocket d
  | .setHandlerOp d => s.setSocketEventHandler d
  | .stopTaskOp => s.stopTask

/-- Run a sequence of operations, concatenating the effect logs. -/
def runOps (s : TLSServer) : List ServerOp → TLSServer × List Effect
  | [] => (s, [])
  | op :: ops =>
    let r := stepOp op s
    let r2 := runOps r.1 ops
    (r2.1, r.2 ++ r2.2)

/-! ## Invariants -/

/-- The registry/interest-set invariant of §3 of the specification: apart
from the listening descriptor, a descriptor is in `_activeDescriptors`
exactly when it is a key of `_socketMap`. -/
def registryInterestInvariant (s : TLSServer) : Prop :=
  ∀ d, d ≠ s.serverSocket →
    (d ∈ s.activeDescriptors ↔ d ∈ s.socketMap.map Prod.fst)

/-- Every registry entry still stores the descriptor it is keyed by (it
has not been invalidated to `-1` while in the map). -/
def mapConsistent (s : TLSServer) : Prop :=
  ∀ p ∈ s.socketMap, p.2.socketDescriptor = (p.1 : Int)

/-- Every registry entry still has its owner back-pointer set. -/
def ownedEntries (s : TLSServer) : Prop :=
  ∀ p ∈ s.socketMap, p.2.owner = true

/-- Before the first successful `listen` (while `_serverIsShutdown`
holds) the registry is empty. -/
def shutdownClean (s : TLSServer) : Prop :=
  s.serverIsShutdown = true → s.socketMap = []

/-- Which operations can actually be applied in a given state.  The loop
operations (`accept`, `readyRead`, `stopTask`) exist only on the loop
thread, which a successful `listen` starts; a connection `close` is here
additionally restricted to run while the server is running — a close
racing with shutdown is exactly the case the code does not handle (see
the stale-interest-bit counterexample below). -/
def admissibleStep (s : TLSServer) (op : ServerOp) : Bool :=
  match op with
  | .acceptOp _ => !s.serverIsShutdown
  | .readyOp _ _ _ => s.serverIsRunning
  | .closeOp _ => s.serverIsRunning
  | .stopTaskOp => !s.serverIsShutdown
  | _ => true

/-- A trace of operations each admissible in the state it is applied to. -/
def admissibleTrace (s : TLSServer) : List ServerOp → Bool
  | [] => true
  | op :: ops => admissibleStep s op && admissibleTrace (stepOp op s).1 ops

/-! ## Sample states used by witnesses -/

/-- A connected, handshake-completed socket with an attached event
handler, on a live session handle. -/
def sampleOpenSocket : TLSSocket :=
  { socketDescriptor := 5, owner := true, sslAccepted := true,
    eventHandler := true, tlsFreed := false }

/-- A started server with one freshly accepted (handshake-pending)
connection on descriptor 5. -/
def pendingServer : TLSServer :=
  (runOps (initialServer 3 true)
    [ServerOp.listenOp true true true, ServerOp.acceptOp 5]).1

/-! ## Helper lemmas about the registry primitives -/

lemma findSocket_eq_none_iff (d : Nat) (l : List (Nat × TLSSocket)) :
    findSocket d l = none ↔ d ∉ l.map Prod.fst := by
  induction l with
  | nil => simp [findSocket]
  | cons p ps ih =>
    by_cases h : p.1 = d
    · simp [findSocket, h]
    · simp only [findSocket, if_neg h, List.map_cons, List.mem_cons, ih]
      constructor
      · intro hnone hmem
        rcases hmem with hmem | hmem
        · exact h hmem.symm
        · exact hnone hmem
      · intro hmem hd
        exact hmem (Or.inr hd)

lemma findSocket_mem {d : Nat} {l : List (Nat × TLSSocket)} {sock : TLSSocket}
    (h : findSocket d l = some sock) : (d, sock) ∈ l := by
  induction l with
  | nil => simp [findSocket] at h
  | cons p ps ih =>
    by_cases hp : p.1 = d
    · obtain ⟨p1, p2⟩ := p
      simp [findSocket, hp] at h
      simp_all
    · simp [findSocket, hp] at h
      exact List.mem_cons_of_mem _ (ih h)

lemma findSocket_append_fresh (d : Nat) (x : TLSSocket) (l : List (Nat × TLSSocket))
    (h : findSocket d l = none) : findSocket d (l ++ [(d, x)]) = some x := by
  induction l with
  | nil => simp [findSocket]
  | cons p ps ih =>
    by_cases hp : p.1 = d <;> simp [findSocket, hp] at h ⊢
    exact ih h

lemma map_fst_updateSocket (d : Nat) (sock : TLSSocket) (l : List (Nat × TLSSocket)) :
    (updateSocket d sock l).map Prod.fst = l.map Prod.fst := by
  induction l with
  | nil => rfl
  | cons p ps ih => by_cases h : p.1 = d <;> simp [updateSocket, h, ih]

lemma mem_updateSocket {p : Nat × TLSSocket} {d : Nat} {sock : TLSSocket}
    {l : List (Nat × TLSSocket)} (h : p ∈ updateSocket d sock l) :
    p = (d, sock) ∨ p ∈ l := by
  induction l with
  | nil => simp [updateSocket] at h
  | cons q qs ih =>
    by_cases hq : q.1 = d
    · simp [updateSocket, hq] at h
      rcases h with h | h
      · exact Or.inl h
      · exact Or.inr (List.mem_cons_of_mem _ h)
    · simp [updateSocket, hq] at h
      rcases h with h | h
      · exact Or.inr (by simp [h])
      · rcases ih h with h1 | h1
        · exact Or.inl h1
        · exact Or.inr (List.mem_cons_of_mem _ h1)

lemma filter_map_desc (d : Nat) (l : List (Nat × TLSSocket)) :
    l.filter (fun p : Nat × TLSSocket => (p.1 : Int) ≠ (d : Int)) =
      l.filter (fun p : Nat × TLSSocket => p.1 ≠ d) := by
  apply List.filter_congr
  intro p _
  simp [Int.natCast_inj]

lemma filter_active_desc (d : Nat) (l : List Nat) :
    l.filter (fun a : Nat => (a : Int) ≠ (d : Int)) =
      l.filter (fun a : Nat => a ≠ d) := by
  apply List.filter_congr
  intro a _
  simp [Int.natCast_inj]

lemma mem_map_fst_filter_ne (e d : Nat) (l : List (Nat × TLSSocket)) :
    e ∈ (l.filter (fun p => p.1 ≠ d)).map Prod.fst ↔
      e ∈ l.map Prod.fst ∧ e ≠ d := by
  simp only [List.mem_map, List.mem_filter, decide_eq_true_eq]
  constructor
  · rintro ⟨p, ⟨hp, hne⟩, rfl⟩
    exact ⟨⟨p, hp, rfl⟩, hne⟩
  · rintro ⟨⟨p, hp, rfl⟩, hne⟩
    exact ⟨p, ⟨hp, hne⟩, rfl⟩

lemma mem_filter_ne (e d : Nat) (l : List Nat) :
    e ∈ l.filter (fun a => a ≠ d) ↔ e ∈ l ∧ e ≠ d := by
  simp [List.mem_filter]

/-! ## Helper lemmas about effect logs -/

lemma close_no_newConnection (r : Bool) (sock : TLSSocket) :
    Effect.newConnectionEvent ∉ (TLSSocket.close r sock).2.2 := by
  unfold TLSSocket.close
  split_ifs <;> simp_all

lemma closeSocket_no_newConnection (s : TLSServer) (d : Nat) :
    Effect.newConnectionEvent ∉ (s.closeSocket d).2 := by
  unfold TLSServer.closeSocket
  cases hf : findSocket d s.socketMap with
  | none => simp
  | some sock =>
    by_cases hc : (TLSSocket.close s.serverIsRunning sock).2.1 <;>
      simpa [hc] using close_no_newConnection s.serverIsRunning sock

lemma readLoop_effects_bytesOnly (handler : Bool) :
    ∀ (steps : List ReadStep) (b : Nat) (r : Int) (effs : List Effect),
      readLoop handler steps b = some (r, effs) →
      ∀ e ∈ effs, ∃ m, e = Effect.bytesReceivedEvent m := by
  intro steps
  induction steps with
  | nil => intro b r effs h; simp [readLoop] at h
  | cons step rest ih =>
    intro b r effs h
    simp only [readLoop] at h
    split_ifs at h with h1 h2 h3 h4 <;>
      first
        | exact ih _ _ _ h
        | · simp only [Option.some.injEq, Prod.mk.injEq] at h
            obtain ⟨rfl, rfl⟩ := h
            simp

/-- Everything a successful `newConnectionEvent` emission implies about a
`socketReadyRead` call: the handshake oracle succeeded on a
not-yet-accepted connection whose owner pointer, the server handler and
the running flag were all set, the result is `1`, and the step's effect
log is exactly the `SSL_accept` call followed by the event. -/
lemma socketReadyRead_newConnection_inv {sock sock1 : TLSSocket}
    {hs sr sh : Bool} {steps : List ReadStep} {effs : List Effect} {r : Int}
    (h : sock.socketReadyRead hs sr sh steps = some (sock1, effs, r))
    (hmem : Effect.newConnectionEvent ∈ effs) :
    hs = true ∧ sock.sslAccepted = false ∧ sock.owner = true ∧
    sh = true ∧ sr = true ∧ r = 1 ∧
    effs = [Effect.sslAcceptCall, Effect.newConnectionEvent] := by
  unfold TLSSocket.socketReadyRead at h
  by_cases ha : sock.sslAccepted
  · rw [ha] at h
    simp only [Bool.not_true, Bool.false_eq_true, if_false] at h
    cases hrl : readLoop sock.eventHandler steps 0 with
    | none => rw [hrl] at h; cases h
    | some p =>
      rw [hrl] at h
      obtain ⟨r0, effs0⟩ := p
      simp only [Option.some.injEq, Prod.mk.injEq] at h
      obtain ⟨-, rfl, -⟩ := h
      obtain ⟨m, hm⟩ :=
        readLoop_effects_bytesOnly sock.eventHandler steps 0 r0 effs0 hrl
          Effect.newConnectionEvent hmem
      cases hm
  · have ha2 : sock.sslAccepted = false := by simpa using ha
    rw [ha2] at h
    simp only [Bool.not_false, if_true, TLSSocket.acceptSSL,
      Option.some.injEq] at h
    cases hhs : hs with
    | false =>
      rw [hhs] at h
      simp only [Bool.not_false, if_true, Prod.mk.injEq] at h
      obtain ⟨-, rfl, -⟩ := h
      simp at hmem
    | true =>
      rw [hhs] at h
      simp only [Bool.not_true, Bool.false_eq_true, if_false, Prod.mk.injEq] at h
      obtain ⟨-, heff, hr⟩ := h
      by_cases ho : sock.owner
      · rw [if_pos (by simpa using ho)] at heff
        unfold sendNewConnectionEvent at heff
        by_cases hg : sh && sr
        · rw [if_pos hg] at heff
          have hgg : sh = true ∧ sr = true := by simpa using hg
          exact ⟨rfl, ha2, ho, hgg.1, hgg.2, hr.symm, heff.symm⟩
        · rw [if_neg hg] at heff
          rw [← heff] at hmem
          simp at hmem
      · rw [if_neg (by simpa using ho)] at heff
        rw [← heff] at hmem
        simp at hmem

/-! ## Helper lemmas about flags along a trace -/

lemma closeSocket_flags (s : TLSServer) (d : Nat) :
    (s.closeSocket d).1.serverIsRunning = s.serverIsRunning ∧
    (s.closeSocket d).1.serverIsShutdown = s.serverIsShutdown ∧
    (s.closeSocket d).1.serverSocket = s.serverSocket ∧
    (s.closeSocket d).1.eventHandler = s.eventHandler := by
  cases hf : findSocket d s.socketMap with
  | none => simp [TLSServer.closeSocket, hf]
  | some sock =>
    by_cases hc : (TLSSocket.close s.serverIsRunning sock).2.1 <;>
      simp [TLSServer.closeSocket, hf, hc]

lemma readyRead_flags (s : TLSServer) (d : Nat) (hs : Bool) (steps : List ReadStep) :
    (s.readyRead d hs steps).1.serverIsRunning = s.serverIsRunning ∧
    (s.readyRead d hs steps).1.serverIsShutdown = s.serverIsShutdown ∧
    (s.readyRead d hs steps).1.serverSocket = s.serverSocket ∧
    (s.readyRead d hs steps).1.eventHandler = s.eventHandler := by
  cases hf : findSocket d s.socketMap with
  | none => simp [TLSServer.readyRead, hf]
  | some sock =>
    cases hsr : sock.socketReadyRead hs s.serverIsRunning s.eventHandler steps with
    | none => simp [TLSServer.readyRead, hf, hsr]
    | some t =>
      obtain ⟨sock1, effs, r⟩ := t
      have hcf := closeSocket_flags
        { s with socketMap := updateSocket d sock1 s.socketMap } d
      by_cases hr : r ≤ 0
      · simp only [TLSServer.readyRead, hf, hsr, if_pos hr]
        exact ⟨hcf.1, hcf.2.1, hcf.2.2.1, hcf.2.2.2⟩
      · simp [TLSServer.readyRead, hf, hsr, if_neg hr]

lemma drain_foldl_fields (L : List (Nat × TLSSocket)) (acc : TLSServer × List Effect) :
    (L.foldl drainStep acc).1.serverIsRunning = acc.1.serverIsRunning ∧
    (L.foldl drainStep acc).1.serverIsShutdown = acc.1.serverIsShutdown ∧
    (L.foldl drainStep acc).1.serverSocket = acc.1.serverSocket ∧
    (L.foldl drainStep acc).1.socketMap = acc.1.socketMap ∧
    (L.foldl drainStep acc).1.eventHandler = acc.1.eventHandler := by
  induction L generalizing acc with
  | nil => exact ⟨rfl, rfl, rfl, rfl, rfl⟩
  | cons p L ih =>
    have h := ih (drainStep acc p)
    simpa [drainStep] using h

lemma stopTask_flags (s : TLSServer) :
    (s.stopTask).1.serverIsRunning = s.serverIsRunning ∧
    (s.stopTask).1.serverIsShutdown = s.serverIsShutdown ∧
    (s.stopTask).1.serverSocket = s.serverSocket ∧
    (s.stopTask).1.eventHandler = s.eventHandler := by
  have h := drain_foldl_fields s.socketMap (s, [])
  exact ⟨h.1, h.2.1, h.2.2.1, h.2.2.2.2⟩

lemma stepOp_notShutdown_persists (s : TLSServer) (op : ServerOp)
    (h : s.serverIsShutdown = false) :
    (stepOp op s).1.serverIsShutdown = false := by
  cases op with
  | listenOp a b c => simp [stepOp, TLSServer.listen, h]
  | shutdownOp =>
    unfold stepOp TLSServer.shutdown
    split_ifs <;> simp [h]
  | selectFailOp =>
    unfold stepOp TLSServer.selectFailed
    split_ifs <;> simp [h]
  | acceptOp d => simpa [stepOp, TLSServer.acceptConnection] using h
  | readyOp d hs steps => exact (readyRead_flags s d hs steps).2.1.trans h
  | closeOp d => exact (closeSocket_flags s d).2.1.trans h
  | setHandlerOp d =>
    cases hf : findSocket d s.socketMap <;>
      simp [stepOp, TLSServer.setSocketEventHandler, hf, h]
  | stopTaskOp => exact (stopTask_flags s).2.1.trans h

lemma runOps_notShutdown_persists (s : TLSServer) (ops : List ServerOp)
    (h : s.serverIsShutdown = false) :
    (runOps s ops).1.serverIsShutdown = false := by
  induction ops generalizing s with
  | nil => exact h
  | cons op rest ih => exact ih (stepOp op s).1 (stepOp_notShutdown_persists s op h)

lemma stepOp_preserves_stopped (s : TLSServer) (op : ServerOp)
    (hrun : s.serverIsRunning = false) (hsd : s.serverIsShutdown = false) :
    (stepOp op s).1.serverIsRunning = false ∧
    (stepOp op s).1.serverIsShutdown = false := by
  refine ⟨?_, stepOp_notShutdown_persists s op hsd⟩
  cases op with
  | listenOp a b c => simp [stepOp, TLSServer.listen, hsd, hrun]
  | shutdownOp =>
    unfold stepOp TLSServer.shutdown
    split_ifs <;> simp [hrun]
  | selectFailOp =>
    unfold stepOp TLSServer.selectFailed
    split_ifs <;> simp [hrun]
  | acceptOp d => simpa [stepOp, TLSServer.acceptConnection] using hrun
  | readyOp d hs steps => exact (readyRead_flags s d hs steps).1.trans hrun
  | closeOp d => exact (closeSocket_flags s d).1.trans hrun
  | setHandlerOp d =>
    cases hf : findSocket d s.socketMap <;>
      simp [stepOp, TLSServer.setSocketEventHandler, hf, hrun]
  | stopTaskOp => exact (stopTask_flags s).1.trans hrun

/-! ## Helper lemmas: no new-connection event once the server is stopped -/

lemma drain_foldl_no_newConnection (L : List (Nat × TLSSocket))
    (acc : TLSServer × List Effect) (h : Effect.newConnectionEvent ∉ acc.2) :
    Effect.newConnectionEvent ∉ (L.foldl drainStep acc).2 := by
  induction L generalizing acc with
  | nil => exact h
  | cons p L ih =>
    refine ih (drainStep acc p) ?_
    simp only [drainStep, List.mem_append]
    rintro (hc | hc)
    · exact h hc
    · exact close_no_newConnection _ _ hc

lemma stopTask_no_newConnection (s : TLSServer) :
    Effect.newConnectionEvent ∉ (s.stopTask).2 :=
  drain_foldl_no_newConnection s.socketMap (s, []) (by simp)

lemma stepOp_no_newConnection_stopped (s : TLSServer) (op : ServerOp)
    (hrun : s.serverIsRunning = false) :
    Effect.newConnectionEvent ∉ (stepOp op s).2 := by
  cases op with
  | listenOp a b c => simp [stepOp]
  | shutdownOp =>
    unfold stepOp TLSServer.shutdown
    split_ifs <;> simp
  | selectFailOp =>
    unfold stepOp TLSServer.selectFailed
    split_ifs <;> simp
  | acceptOp d => simp [stepOp, TLSServer.acceptConnection]
  | setHandlerOp d =>
    cases hf : findSocket d s.socketMap <;>
      simp [stepOp, TLSServer.setSocketEventHandler, hf]
  | closeOp d => exact closeSocket_no_newConnection s d
  | stopTaskOp => exact stopTask_no_newConnection s
  | readyOp d hs steps =>
    cases hf : findSocket d s.socketMap with
    | none => simp [stepOp, TLSServer.readyRead, hf]
    | some sock =>
      cases hsr : sock.socketReadyRead hs s.serverIsRunning s.eventHandler steps with
      | none => simp [stepOp, TLSServer.readyRead, hf, hsr]
      | some t =>
        obtain ⟨sock1, effs, r⟩ := t
        have heffs : Effect.newConnectionEvent ∉ effs := by
          intro hmem
          have hinv := socketReadyRead_newConnection_inv hsr hmem
          rw [hrun] at hinv
          exact absurd hinv.2.2.2.2.1 (by simp)
        by_cases hr : r ≤ 0
        · simp only [stepOp, TLSServer.readyRead, hf, hsr, if_pos hr,
            List.mem_append]
          rintro (hc | hc)
          · exact heffs hc
          · exact closeSocket_no_newConnection _ _ hc
        · simp only [stepOp, TLSServer.readyRead, hf, hsr, if_neg hr]
          exact heffs

lemma runOps_no_newConnection_stopped (t : TLSServer) (ops : List ServerOp)
    (hrun : t.serverIsRunning = false) (hsd : t.serverIsShutdown = false) :
    Effect.newConnectionEvent ∉ (runOps t ops).2 := by
  induction ops generalizing t with
  | nil => simp [runOps]
  | cons op rest ih =>
    simp only [runOps, List.mem_append]
    rintro (hc | hc)
    · exact stepOp_no_newConnection_stopped t op hrun hc
    · obtain ⟨h1, h2⟩ := stepOp_preserves_stopped t op hrun hsd
      exact ih (stepOp op t).1 h1 h2 hc

/-! ## Claims about the connection object -/

/-- C7: `close()` is idempotent.  After any first `close` call, a second
`close` — whatever the server's running state at either call — leaves the
connection state unchanged, performs no registry erase, and produces no
effect at all (in particular no second disconnect notification). -/
theorem close_idempotent (sock : TLSSocket) (r1 r2 : Bool) :
    TLSSocket.close r2 (TLSSocket.close r1 sock).1 =
      ((TLSSocket.close r1 sock).1, false, []) := by
  by_cases h : sock.socketDescriptor = -1 <;>
    simp [TLSSocket.close, h]

/-- C2: behaviour of `write` after `close`.  `TLSSocket::close` frees the
TLS session handle (`SSL_free(_tlsPeer)`) and invalidates the descriptor,
but `TLSSocket::write` passes `_tlsPeer` to `SSL_write` with no validity
check, so a write on a closed connection operates on a dangling session
handle (undefined behaviour) instead of returning a non-positive result. -/
theorem write_after_close_dangling_handle :
    (TLSSocket.close true sampleOpenSocket).1.socketDescriptor = -1 ∧
    (TLSSocket.close true sampleOpenSocket).1.tlsFreed = true ∧
    TLSSocket.write 7 (TLSSocket.close true sampleOpenSocket).1 =
      Except.error () :=
  ⟨rfl, rfl, rfl⟩

/-- C3: read buffering.  On an established connection with an attached
event handler, if the first decrypt read obtains `n > 0` bytes and the
library then reports `k > 0` buffered bytes, which the next read returns
with nothing further pending, `socketReadyRead` delivers exactly one
bytes-received notification carrying exactly `n + k` bytes. -/
theorem socketReadyRead_single_notification (sock : TLSSocket)
    (hs sr sh : Bool) (n k : Nat)
    (hacc : sock.sslAccepted = true) (hev : sock.eventHandler = true)
    (hn : 0 < n) (hk : 0 < k) :
    sock.socketReadyRead hs sr sh [⟨(n : Int), k⟩, ⟨(k : Int), 0⟩] =
      some (sock, [Effect.bytesReceivedEvent (n + k)], (k : Int)) := by
  have hn1 : ¬ ((n : Int) ≤ 0) := by exact_mod_cast Nat.not_le.mpr hn
  have hk1 : ¬ ((k : Int) ≤ 0) := by exact_mod_cast Nat.not_le.mpr hk
  simp [TLSSocket.socketReadyRead, hacc, readLoop, hn1, hk1, hev, hk]

/-- Witness for `socketReadyRead_single_notification` at `n = 5`,
`k = 3`. -/
theorem socketReadyRead_single_notification_witness :
    sampleOpenSocket.socketReadyRead true true true [⟨5, 3⟩, ⟨3, 0⟩] =
      some (sampleOpenSocket, [Effect.bytesReceivedEvent 8], 3) :=
  socketReadyRead_single_notification sampleOpenSocket true true true 5 3
    rfl rfl (by decide) (by decide)

/-- C4: no silent drop on mid-stream failure.  If, after a first decrypt
read of `n > 0` bytes with `k > 0` reported pending, the next read fails
(result `e ≤ 0`), the `n` bytes accumulated so far are still delivered to
the event sink in one notification, and the failing result is returned. -/
theorem socketReadyRead_flush_before_failure (sock : TLSSocket)
    (hs sr sh : Bool) (n k p : Nat) (e : Int)
    (hacc : sock.sslAccepted = true) (hev : sock.eventHandler = true)
    (hn : 0 < n) (hk : 0 < k) (he : e ≤ 0) :
    sock.socketReadyRead hs sr sh [⟨(n : Int), k⟩, ⟨e, p⟩] =
      some (sock, [Effect.bytesReceivedEvent n], e) := by
  have hn1 : ¬ ((n : Int) ≤ 0) := by exact_mod_cast Nat.not_le.mpr hn
  have hn0 : n ≠ 0 := Nat.pos_iff_ne_zero.mp hn
  simp [TLSSocket.socketReadyRead, hacc, readLoop, hn1, hev, hk, he, hn0]

/-- Witness for `socketReadyRead_flush_before_failure` at `n = 5`,
`k = 3`, `e = -1`. -/
theorem socketReadyRead_flush_before_failure_witness :
    sampleOpenSocket.socketReadyRead true true true [⟨5, 3⟩, ⟨-1, 7⟩] =
      some (sampleOpenSocket, [Effect.bytesReceivedEvent 5], -1) :=
  socketReadyRead_flush_before_failure sampleOpenSocket true true true 5 3 7 (-1)
    rfl rfl (by decide) (by decide) (by decide)

/-- C9: a failed handshake leaves no trace at the event sinks.  On
`SSL_accept` failure, `acceptSSL` clears the connection's event-handler
reference before returning the failure code `-2`, sends no
new-connection event, and the subsequent teardown `close` fires neither a
disconnect nor a new-connection notification. -/
theorem acceptSSL_failure_no_sink_events (sock : TLSSocket)
    (sr sh r2 : Bool) (hacc : sock.sslAccepted = false) :
    (sock.acceptSSL false sr sh).1.eventHandler = false ∧
    (sock.acceptSSL false sr sh).2.2 = -2 ∧
    (sock.acceptSSL false sr sh).2.1 = [Effect.sslAcceptCall] ∧
    Effect.disconnectedEvent ∉
      (TLSSocket.close r2 (sock.acceptSSL false sr sh).1).2.2 ∧
    Effect.newConnectionEvent ∉
      (TLSSocket.close r2 (sock.acceptSSL false sr sh).1).2.2 := by
  refine ⟨rfl, rfl, rfl, ?_, ?_⟩ <;>
  · by_cases h : sock.socketDescriptor = -1 <;>
      cases r2 <;> by_cases ho : sock.owner <;>
        simp [TLSSocket.close, TLSSocket.acceptSSL, h, ho, hacc]

/-- Witness for `acceptSSL_failure_no_sink_events` on a fresh pending
connection. -/
theorem acceptSSL_failure_no_sink_events_witness :
    ((newSocket 5).acceptSSL false true true).1.eventHandler = false ∧
    ((newSocket 5).acceptSSL false true true).2.2 = -2 ∧
    ((newSocket 5).acceptSSL false true true).2.1 = [Effect.sslAcceptCall] ∧
    Effect.disconnectedEvent ∉
      (TLSSocket.close true ((newSocket 5).acceptSSL false true true).1).2.2 ∧
    Effect.newConnectionEvent ∉
      (TLSSocket.close true ((newSocket 5).acceptSSL false true true).1).2.2 :=
  acceptSSL_failure_no_sink_events (newSocket 5) true true true rfl

/-! ## Preservation of the registry/interest-set invariant -/

/-- The inductive invariant carried along a trace: the registry/interest
correspondence itself, plus three structural facts the steps rely on —
every registry entry still holds its keying descriptor and its owner
pointer, and the registry is empty before the first `listen`. -/
def goodState (s : TLSServer) : Prop :=
  registryInterestInvariant s ∧ mapConsistent s ∧ ownedEntries s ∧ shutdownClean s

lemma drain_foldl_active_mem (L : List (Nat × TLSSocket))
    (acc : TLSServer × List Effect) (e : Nat) :
    e ∈ (L.foldl drainStep acc).1.activeDescriptors ↔
      (e ∈ acc.1.activeDescriptors ∧
        ∀ p ∈ L, (e : Int) ≠ p.2.socketDescriptor) := by
  induction L generalizing acc with
  | nil => simp
  | cons p L ih =>
    rw [List.foldl_cons]
    have hstep : e ∈ (drainStep acc p).1.activeDescriptors ↔
        (e ∈ acc.1.activeDescriptors ∧ (e : Int) ≠ p.2.socketDescriptor) := by
      simp [drainStep, List.mem_filter]
    rw [ih (drainStep acc p), hstep]
    simp only [List.forall_mem_cons]
    tauto

lemma socketReadyRead_preserves_id {sock sock1 : TLSSocket} {hs sr sh : Bool}
    {steps : List ReadStep} {effs : List Effect} {r : Int}
    (h : sock.socketReadyRead hs sr sh steps = some (sock1, effs, r)) :
    sock1.socketDescriptor = sock.socketDescriptor ∧ sock1.owner = sock.owner := by
  unfold TLSSocket.socketReadyRead at h
  by_cases ha : sock.sslAccepted
  · rw [ha] at h
    simp only [Bool.not_true, Bool.false_eq_true, if_false] at h
    cases hrl : readLoop sock.eventHandler steps 0 with
    | none => rw [hrl] at h; cases h
    | some p =>
      rw [hrl] at h
      obtain ⟨r0, e0⟩ := p
      simp only [Option.some.injEq, Prod.mk.injEq] at h
      obtain ⟨heq, -, -⟩ := h
      rw [← heq]
      exact ⟨rfl, rfl⟩
  · have ha2 : sock.sslAccepted = false := by simpa using ha
    rw [ha2] at h
    simp only [Bool.not_false, if_true, TLSSocket.acceptSSL,
      Option.some.injEq] at h
    cases hhs : hs <;> rw [hhs] at h <;>
      simp only [Bool.not_false, Bool.not_true, Bool.false_eq_true, if_true,
        if_false, Prod.mk.injEq] at h <;>
      obtain ⟨heq, -, -⟩ := h <;> rw [← heq] <;> exact ⟨rfl, rfl⟩

lemma update_preserves_good (s : TLSServer) (d : Nat) (sock sock1 : TLSSocket)
    (hf : findSocket d s.socketMap = some sock)
    (hdesc : sock1.socketDescriptor = sock.socketDescriptor)
    (hown : sock1.owner = sock.owner)
    (hg : goodState s) :
    goodState { s with socketMap := updateSocket d sock1 s.socketMap } := by
  obtain ⟨hInv, hCons, hOwn, hClean⟩ := hg
  have hmem := findSocket_mem hf
  refine ⟨?_, ?_, ?_, ?_⟩
  · intro e he
    show e ∈ s.activeDescriptors ↔ e ∈ (updateSocket d sock1 s.socketMap).map Prod.fst
    rw [map_fst_updateSocket]
    exact hInv e he
  · intro p hp
    rcases mem_updateSocket hp with rfl | hp2
    · show sock1.socketDescriptor = (d : Int)
      rw [hdesc]
      exact hCons _ hmem
    · exact hCons _ hp2
  · intro p hp
    rcases mem_updateSocket hp with rfl | hp2
    · show sock1.owner = true
      rw [hown]
      exact hOwn _ hmem
    · exact hOwn _ hp2
  · intro hsd
    have hmap := hClean hsd
    show updateSocket d sock1 s.socketMap = []
    rw [hmap]
    rfl

lemma closeSocket_preserves_good (s : TLSServer) (d : Nat)
    (hrun : s.serverIsRunning = true) (hg : goodState s) :
    goodState (s.closeSocket d).1 := by
  obtain ⟨hInv, hCons, hOwn, hClean⟩ := hg
  cases hf : findSocket d s.socketMap with
  | none => simpa [TLSServer.closeSocket, hf] using ⟨hInv, hCons, hOwn, hClean⟩
  | some sock =>
    have hmem := findSocket_mem hf
    have hdesc : sock.socketDescriptor = (d : Int) := hCons _ hmem
    have howner : sock.owner = true := hOwn _ hmem
    have hne : ¬ sock.socketDescriptor = -1 := by rw [hdesc]; omega
    have hrem : (TLSSocket.close s.serverIsRunning sock).2.1 = true := by
      simp [TLSSocket.close, hne, howner, hrun]
    have hstate : (s.closeSocket d).1 = { s with
        activeDescriptors := s.activeDescriptors.filter (fun a : Nat => a ≠ d),
        socketMap := s.socketMap.filter (fun p : Nat × TLSSocket => p.1 ≠ d) } := by
      simp [TLSServer.closeSocket, hf, hrem, hdesc, filter_active_desc,
        filter_map_desc]
    rw [hstate]
    refine ⟨?_, ?_, ?_, ?_⟩
    · intro e he
      show e ∈ s.activeDescriptors.filter (fun a : Nat => a ≠ d) ↔
        e ∈ (s.socketMap.filter (fun p : Nat × TLSSocket => p.1 ≠ d)).map Prod.fst
      rw [mem_filter_ne, mem_map_fst_filter_ne]
      constructor
      · rintro ⟨hea, hed⟩
        exact ⟨(hInv e he).mp hea, hed⟩
      · rintro ⟨hek, hed⟩
        exact ⟨(hInv e he).mpr hek, hed⟩
    · intro p hp
      exact hCons _ (List.mem_filter.mp hp).1
    · intro p hp
      exact hOwn _ (List.mem_filter.mp hp).1
    · intro hsd
      show s.socketMap.filter (fun p : Nat × TLSSocket => p.1 ≠ d) = []
      rw [hClean hsd]
      rfl

lemma readyRead_preserves_good (s : TLSServer) (d : Nat) (hs : Bool)
    (steps : List ReadStep) (hrun : s.serverIsRunning = true)
    (hg : goodState s) : goodState (s.readyRead d hs steps).1 := by
  cases hf : findSocket d s.socketMap with
  | none => simpa [TLSServer.readyRead, hf] using hg
  | some sock =>
    cases hsr : sock.socketReadyRead hs s.serverIsRunning s.eventHandler steps with
    | none => simpa [TLSServer.readyRead, hf, hsr] using hg
    | some t =>
      obtain ⟨sock1, effs, r⟩ := t
      obtain ⟨hdesc, hown⟩ := socketReadyRead_preserves_id hsr
      have hg1 : goodState { s with socketMap := updateSocket d sock1 s.socketMap } :=
        update_preserves_good s d sock sock1 hf hdesc hown hg
      by_cases hr : r ≤ 0
      · have hc := closeSocket_preserves_good
          { s with socketMap := updateSocket d sock1 s.socketMap } d hrun hg1
        simpa [TLSServer.readyRead, hf, hsr, if_pos hr] using hc
      · simpa [TLSServer.readyRead, hf, hsr, if_neg hr] using hg1

lemma setHandler_preserves_good (s : TLSServer) (d : Nat) (hg : goodState s) :
    goodState (s.setSocketEventHandler d).1 := by
  cases hf : findSocket d s.socketMap with
  | none => simpa [TLSServer.setSocketEventHandler, hf] using hg
  | some sock =>
    have hu := update_preserves_good s d sock { sock with eventHandler := true }
      hf rfl rfl hg
    simpa [TLSServer.setSocketEventHandler, hf] using hu

lemma accept_preserves_good (s : TLSServer) (d : Nat)
    (hsd : s.serverIsShutdown = false) (hg : goodState s) :
    goodState (s.acceptConnection d).1 := by
  obtain ⟨hInv, hCons, hOwn, hClean⟩ := hg
  by_cases hfind : (findSocket d s.socketMap).isSome
  · have hdk : d ∈ s.socketMap.map Prod.fst := by
      cases hf : findSocket d s.socketMap with
      | none => rw [hf] at hfind; cases hfind
      | some sock => exact List.mem_map.mpr ⟨(d, sock), findSocket_mem hf, rfl⟩
    refine ⟨?_, ?_, ?_, ?_⟩
    · intro e he
      show e ∈ (if d ∈ s.activeDescriptors then s.activeDescriptors
          else s.activeDescriptors ++ [d]) ↔
        e ∈ (if (findSocket d s.socketMap).isSome then s.socketMap
          else s.socketMap ++ [(d, newSocket d)]).map Prod.fst
      rw [if_pos hfind]
      by_cases hda : d ∈ s.activeDescriptors
      · rw [if_pos hda]
        exact hInv e he
      · rw [if_neg hda]
        constructor
        · intro hmemb
          rcases List.mem_append.mp hmemb with hc | hc
          · exact (hInv e he).mp hc
          · rw [List.mem_singleton.mp hc]
            exact hdk
        · intro hk
          exact List.mem_append.mpr (Or.inl ((hInv e he).mpr hk))
    · intro p hp
      rw [show (s.acceptConnection d).1.socketMap =
          (if (findSocket d s.socketMap).isSome then s.socketMap
            else s.socketMap ++ [(d, newSocket d)]) from rfl, if_pos hfind] at hp
      exact hCons _ hp
    · intro p hp
      rw [show (s.acceptConnection d).1.socketMap =
          (if (findSocket d s.socketMap).isSome then s.socketMap
            else s.socketMap ++ [(d, newSocket d)]) from rfl, if_pos hfind] at hp
      exact hOwn _ hp
    · intro hcontra
      exact absurd (show s.serverIsShutdown = true from hcontra) (by simp [hsd])
  · have hnone : findSocket d s.socketMap = none := by
      cases hf : findSocket d s.socketMap with
      | none => rfl
      | some sock => rw [hf] at hfind; simp at hfind
    have hdk : d ∉ s.socketMap.map Prod.fst := (findSocket_eq_none_iff d _).mp hnone
    refine ⟨?_, ?_, ?_, ?_⟩
    · intro e he
      show e ∈ (if d ∈ s.activeDescriptors then s.activeDescriptors
          else s.activeDescriptors ++ [d]) ↔
        e ∈ (if (findSocket d s.socketMap).isSome then s.socketMap
          else s.socketMap ++ [(d, newSocket d)]).map Prod.fst
      rw [if_neg hfind, List.map_append]
      by_cases hda : d ∈ s.activeDescriptors
      · rw [if_pos hda]
        by_cases hds : d = s.serverSocket
        · constructor
          · intro hmemb
            exact List.mem_append.mpr (Or.inl ((hInv e he).mp hmemb))
          · intro hk
            rcases List.mem_append.mp hk with hc | hc
            · exact (hInv e he).mpr hc
            · exfalso
              have : e = d := by simpa using hc
              rw [this, hds] at he
              exact he rfl
        · exact absurd ((hInv d hds).mp hda) hdk
      · rw [if_neg hda]
        constructor
        · intro hmemb
          rcases List.mem_append.mp hmemb with hc | hc
          · exact List.mem_append.mpr (Or.inl ((hInv e he).mp hc))
          · exact List.mem_append.mpr (Or.inr (by simpa using hc))
        · intro hk
          rcases List.mem_append.mp hk with hc | hc
          · exact List.mem_append.mpr (Or.inl ((hInv e he).mpr hc))
          · refine List.mem_append.mpr (Or.inr ?_)
            simpa using hc
    · intro p hp
      rw [show (s.acceptConnection d).1.socketMap =
          (if (findSocket d s.socketMap).isSome then s.socketMap
            else s.socketMap ++ [(d, newSocket d)]) from rfl,
        if_neg hfind] at hp
      rcases List.mem_append.mp hp with hc | hc
      · exact hCons _ hc
      · rw [List.mem_singleton.mp hc]
        rfl
    · intro p hp
      rw [show (s.acceptConnection d).1.socketMap =
          (if (findSocket d s.socketMap).isSome then s.socketMap
            else s.socketMap ++ [(d, newSocket d)]) from rfl,
        if_neg hfind] at hp
      rcases List.mem_append.mp hp with hc | hc
      · exact hOwn _ hc
      · rw [List.mem_singleton.mp hc]
        rfl
    · intro hcontra
      exact absurd (show s.serverIsShutdown = true from hcontra) (by simp [hsd])

lemma stopTask_preserves_good (s : TLSServer) (hg : goodState s) :
    goodState (s.stopTask).1 := by
  obtain ⟨hInv, hCons, hOwn, hClean⟩ := hg
  refine ⟨?_, ?_, ?_, ?_⟩
  · intro e he
    constructor
    · intro hmemb
      exfalso
      have hm2 := (drain_foldl_active_mem s.socketMap (s, []) e).mp hmemb
      have hss : (s.stopTask).1.serverSocket = s.serverSocket := (stopTask_flags s).2.2.1
      have he2 : e ≠ s.serverSocket := by rw [← hss]; exact he
      obtain ⟨p, hp, hpe⟩ := List.mem_map.mp ((hInv e he2).mp hm2.1)
      have hne := hm2.2 p hp
      rw [hCons p hp, hpe] at hne
      exact hne rfl
    · intro hk
      exact absurd hk (by simp [TLSServer.stopTask])
  · intro p hp
    exact absurd hp (by simp [TLSServer.stopTask])
  · intro p hp
    exact absurd hp (by simp [TLSServer.stopTask])
  · intro _
    rfl

lemma stepOp_preserves_good (s : TLSServer) (op : ServerOp)
    (hadm : admissibleStep s op = true) (hg : goodState s) :
    goodState (stepOp op s).1 := by
  cases op with
  | listenOp a b c =>
    show goodState (s.listen a b c).1
    unfold TLSServer.listen
    split_ifs with h1 h2 h3 h4
    · exact hg
    · exact hg
    · exact hg
    · exact hg
    · have hsd : s.serverIsShutdown = true := by
        cases hb : s.serverIsShutdown
        · exact absurd (by simp [hb]) h1
        · rfl
      have hmap : s.socketMap = [] := hg.2.2.2 hsd
      refine ⟨?_, ?_, ?_, ?_⟩
      · intro e he
        constructor
        · intro hmemb
          exact absurd (List.mem_singleton.mp hmemb) he
        · intro hk
          have hk2 : e ∈ s.socketMap.map Prod.fst := hk
          rw [hmap] at hk2
          cases hk2
      · intro p hp
        have hp2 : p ∈ s.socketMap := hp
        rw [hmap] at hp2
        cases hp2
      · intro p hp
        have hp2 : p ∈ s.socketMap := hp
        rw [hmap] at hp2
        cases hp2
      · intro _
        exact hmap
  | shutdownOp =>
    show goodState (s.shutdown).1
    unfold TLSServer.shutdown
    split_ifs <;> exact hg
  | selectFailOp =>
    show goodState (s.selectFailed).1
    unfold TLSServer.selectFailed
    split_ifs <;> exact hg
  | acceptOp d => exact accept_preserves_good s d (by simpa [admissibleStep] using hadm) hg
  | readyOp d hs steps =>
    exact readyRead_preserves_good s d hs steps (by simpa [admissibleStep] using hadm) hg
  | closeOp d => exact closeSocket_preserves_good s d (by simpa [admissibleStep] using hadm) hg
  | setHandlerOp d => exact setHandler_preserves_good s d hg
  | stopTaskOp => exact stopTask_preserves_good s hg

lemma runOps_preserves_good (s : TLSServer) (ops : List ServerOp)
    (hadm : admissibleTrace s ops = true) (hg : goodState s) :
    goodState (runOps s ops).1 := by
  induction ops generalizing s with
  | nil => exact hg
  | cons op rest ih =>
    simp only [admissibleTrace, Bool.and_eq_true] at hadm
    exact ih (stepOp op s).1 hadm.2 (stepOp_preserves_good s op hadm.1 hg)

lemma initialServer_good (ld : Nat) (h : Bool) : goodState (initialServer ld h) := by
  refine ⟨?_, ?_, ?_, fun _ => rfl⟩
  · intro e he
    simp [initialServer]
  · intro p hp
    simp [initialServer] at hp
  · intro p hp
    simp [initialServer] at hp

/-! ## Claims about the server facade -/

lemma listen_fails_not_clean (t : TLSServer) (a b c : Bool)
    (h : t.serverIsShutdown = false) : t.listen a b c = (t, false) := by
  simp [TLSServer.listen, h]

/-- C8: `listen` guard and failure behaviour.  (i) When the server is not
completely shut down (`_serverIsShutdown` false — already running, or a
prior shutdown not yet drained), `listen` fails and leaves the state
completely untouched, so an existing listener stays intact.  (ii) From
the clean state, a socket/bind/listen error makes `listen` return
failure, leaves the server not running and still cleanly shut down, and
a retry with working primitives succeeds.  (iii) In particular a second
`listen` directly after a successful one fails with the state of the
first listener unchanged. -/
theorem listen_guard_and_failure (s : TLSServer) (a b c a2 b2 c2 : Bool) :
    (s.serverIsShutdown = false → s.listen a b c = (s, false)) ∧
    (s.serverIsShutdown = true → s.serverIsRunning = false →
      (a && b && c) = false →
      (s.listen a b c).2 = false ∧
      (s.listen a b c).1.serverIsRunning = false ∧
      (s.listen a b c).1.serverIsShutdown = true ∧
      ((s.listen a b c).1.listen true true true).2 = true) ∧
    ((s.listen a b c).2 = true →
      (s.listen a b c).1.listen a2 b2 c2 = ((s.listen a b c).1, false)) := by
  refine ⟨?_, ?_, ?_⟩
  · intro h
    simp [TLSServer.listen, h]
  · intro h hr hf
    cases a <;> cases b <;> cases c <;> simp_all [TLSServer.listen]
  · intro h
    cases a <;> cases b <;> cases c <;>
      by_cases hsd : s.serverIsShutdown <;> simp_all [TLSServer.listen]

/-- Witness for `listen_guard_and_failure`: a failed bind on a fresh
server, then a successful retry; and a successful `listen` followed by a
second one that fails leaving the first intact. -/
theorem listen_guard_and_failure_witness :
    (((initialServer 3 true).listen false true true).2 = false ∧
     ((initialServer 3 true).listen false true true).1.serverIsRunning = false ∧
     ((initialServer 3 true).listen false true true).1.serverIsShutdown = true ∧
     (((initialServer 3 true).listen false true true).1.listen true true true).2 = true) ∧
    ((initialServer 3 true).listen true true true).1.listen true true true =
      (((initialServer 3 true).listen true true true).1, false) :=
  ⟨(listen_guard_and_failure (initialServer 3 true) false true true true true true).2.1
      rfl rfl (by decide),
   (listen_guard_and_failure (initialServer 3 true) true true true true true true).2.2
      (by decide)⟩

/-- C10 (implicit): a `TLSServer` can never be restarted.  `listen` sets
`_serverIsShutdown` to `false`, no operation — neither `shutdown` nor the
`stopTask` drain — ever sets it back to `true`, and `listen` requires it
to be `true`; hence after one successful `listen`, every later `listen`
call on the same instance returns `false`, whatever happened in
between. -/
theorem listen_never_succeeds_again (s : TLSServer) (a b c : Bool)
    (ops : List ServerOp) (a2 b2 c2 : Bool)
    (h : (s.listen a b c).2 = true) :
    ((runOps (s.listen a b c).1 ops).1.listen a2 b2 c2).2 = false := by
  have h1 : (s.listen a b c).1.serverIsShutdown = false := by
    revert h
    unfold TLSServer.listen
    split_ifs <;> intro h <;> simp_all
  have h2 := runOps_notShutdown_persists (s.listen a b c).1 ops h1
  rw [listen_fails_not_clean _ a2 b2 c2 h2]

/-- Witness for `listen_never_succeeds_again`: listen, shutdown and drain
completely, then try to listen again — it fails. -/
theorem listen_never_succeeds_again_witness :
    ((initialServer 3 true).listen true true true).2 = true ∧
    ((runOps ((initialServer 3 true).listen true true true).1
        [ServerOp.shutdownOp, ServerOp.stopTaskOp]).1.listen true true true).2 = false :=
  ⟨by decide,
   listen_never_succeeds_again (initialServer 3 true) true true true
     [ServerOp.shutdownOp, ServerOp.stopTaskOp] true true true (by decide)⟩

/-- C6 (amended): once `shutdown` has been called on a server that had
already started listening (`_serverIsShutdown` false at the call), no
new-connection event is ever emitted afterwards, whatever operations —
including handshakes that were in flight — still run. -/
theorem no_newConnection_after_shutdown (s : TLSServer) (ops : List ServerOp)
    (h : s.serverIsShutdown = false) :
    Effect.newConnectionEvent ∉ (runOps (s.shutdown).1 ops).2 := by
  have h1 : (s.shutdown).1.serverIsRunning = false ∧
      (s.shutdown).1.serverIsShutdown = false := by
    unfold TLSServer.shutdown
    split_ifs with hg
    · simp [h]
    · constructor
      · cases hrv : s.serverIsRunning
        · rfl
        · exact absurd (by simp [hrv, h]) hg
      · exact h
  exact runOps_no_newConnection_stopped _ ops h1.1 h1.2

/-- Witness for `no_newConnection_after_shutdown`: shut down a running
server with a pending connection, then let that connection's handshake
complete — no new-connection event is emitted. -/
theorem no_newConnection_after_shutdown_witness :
    pendingServer.serverIsShutdown = false ∧
    Effect.newConnectionEvent ∉
      (runOps (pendingServer.shutdown).1 [ServerOp.readyOp 5 true []]).2 :=
  ⟨by decide,
   no_newConnection_after_shutdown pendingServer [ServerOp.readyOp 5 true []]
     (by decide)⟩

/-- C6 counterexample to the claim as stated: calling `shutdown` on a
server that has not yet started is a silent no-op (the guard
`_serverIsRunning && !_serverIsShutdown` is false), so a later `listen`
still succeeds and a connection accepted and handshaken after it still
fires a new-connection event — an event after `shutdown` was called. -/
theorem newConnection_fires_after_early_shutdown :
    Effect.newConnectionEvent ∈
      (runOps ((initialServer 3 true).shutdown).1
        [ServerOp.listenOp true true true, ServerOp.acceptOp 5,
         ServerOp.readyOp 5 true []]).2 := by decide

/-- C1: handshake deferral and gating of the new-connection event.
(i) The accept step emits no effect at all: in particular no
`SSL_accept` call (zero bytes of handshake traffic) and no event.
(ii) A freshly accepted descriptor is registered with `_sslAccepted`
still false.  (iii) Any step of the server that emits a new-connection
event is a readiness step whose handshake oracle succeeded on a
registered, still-pending connection, and its whole effect log is the
`SSL_accept` call followed by the event — so the event fires only after
a successful handshake, never at accept time and never for a failed
handshake attempt. -/
theorem handshake_deferral_and_event_gating :
    (∀ (s : TLSServer) (d : Nat), (stepOp (ServerOp.acceptOp d) s).2 = []) ∧
    (∀ (s : TLSServer) (d : Nat), findSocket d s.socketMap = none →
      findSocket d (stepOp (ServerOp.acceptOp d) s).1.socketMap =
        some (newSocket d)) ∧
    (∀ (s : TLSServer) (op : ServerOp),
      Effect.newConnectionEvent ∈ (stepOp op s).2 →
      ∃ (d : Nat) (steps : List ReadStep) (sock : TLSSocket),
        op = ServerOp.readyOp d true steps ∧
        findSocket d s.socketMap = some sock ∧
        sock.sslAccepted = false ∧
        (stepOp op s).2 = [Effect.sslAcceptCall, Effect.newConnectionEvent]) := by
  refine ⟨fun s d => rfl, ?_, ?_⟩
  · intro s d h
    have hns : (findSocket d s.socketMap).isSome = false := by simp [h]
    simp only [stepOp, TLSServer.acceptConnection, hns, Bool.false_eq_true,
      if_false]
    exact findSocket_append_fresh d (newSocket d) s.socketMap h
  · intro s op hmem
    cases op with
    | listenOp a b c => simp [stepOp] at hmem
    | shutdownOp =>
      unfold stepOp TLSServer.shutdown at hmem
      split_ifs at hmem <;> simp at hmem
    | selectFailOp =>
      unfold stepOp TLSServer.selectFailed at hmem
      split_ifs at hmem <;> simp at hmem
    | acceptOp d => simp [stepOp, TLSServer.acceptConnection] at hmem
    | setHandlerOp d =>
      exfalso
      cases hf : findSocket d s.socketMap <;>
        simp [stepOp, TLSServer.setSocketEventHandler, hf] at hmem
    | closeOp d => exact absurd hmem (closeSocket_no_newConnection s d)
    | stopTaskOp => exact absurd hmem (stopTask_no_newConnection s)
    | readyOp d hs steps =>
      cases hf : findSocket d s.socketMap with
      | none => simp [stepOp, TLSServer.readyRead, hf] at hmem
      | some sock =>
        cases hsr : sock.socketReadyRead hs s.serverIsRunning s.eventHandler steps with
        | none => simp [stepOp, TLSServer.readyRead, hf, hsr] at hmem
        | some t =>
          obtain ⟨sock1, effs, r⟩ := t
          by_cases hr : r ≤ 0
          · simp only [stepOp, TLSServer.readyRead, hf, hsr, if_pos hr,
              List.mem_append] at hmem
            rcases hmem with hc | hc
            · have hinv := socketReadyRead_newConnection_inv hsr hc
              rw [hinv.2.2.2.2.2.1] at hr
              exact absurd hr (by norm_num)
            · exact absurd hc (closeSocket_no_newConnection _ _)
          · simp only [stepOp, TLSServer.readyRead, hf, hsr, if_neg hr] at hmem
            have hinv := socketReadyRead_newConnection_inv hsr hmem
            refine ⟨d, steps, sock, ?_, hf, hinv.2.1, ?_⟩
            · rw [hinv.1]
            · simp only [stepOp, TLSServer.readyRead, hf, hsr, if_neg hr]
              exact hinv.2.2.2.2.2.2

/-- Witness for `handshake_deferral_and_event_gating`: a fresh accept on
descriptor 7 of the sample started server, and the successful handshake
readiness step of its pending connection 5, which does emit the event. -/
theorem handshake_deferral_and_event_gating_witness :
    findSocket 7 pendingServer.socketMap = none ∧
    (findSocket 7 (stepOp (ServerOp.acceptOp 7) pendingServer).1.socketMap =
      some (newSocket 7)) ∧
    (∃ (d : Nat) (steps : List ReadStep) (sock : TLSSocket),
      ServerOp.readyOp 5 true ([] : List ReadStep) = ServerOp.readyOp d true steps ∧
      findSocket d pendingServer.socketMap = some sock ∧
      sock.sslAccepted = false ∧
      (stepOp (ServerOp.readyOp 5 true []) pendingServer).2 =
        [Effect.sslAcceptCall, Effect.newConnectionEvent]) :=
  ⟨by decide,
   handshake_deferral_and_event_gating.2.1 pendingServer 7 (by decide),
   handshake_deferral_and_event_gating.2.2 pendingServer
     (ServerOp.readyOp 5 true []) (by decide)⟩

/-- C5 (amended): in every execution of one server instance in which
connection closes and readiness dispatches happen only while the server
is running (no close races into the shutdown-to-drain window), a
descriptor is in the interest set exactly when it has a live registry
entry, the listening descriptor excepted; each such mutation is one
critical section of the model. -/
theorem registry_matches_interest_set (ld : Nat) (h : Bool)
    (ops : List ServerOp)
    (hadm : admissibleTrace (initialServer ld h) ops = true) :
    registryInterestInvariant (runOps (initialServer ld h) ops).1 :=
  (runOps_preserves_good (initialServer ld h) ops hadm
    (initialServer_good ld h)).1

/-- Witness for `registry_matches_interest_set`: a full well-behaved
lifecycle — listen, accept, attach a sink, successful handshake, close
while running, shutdown, drain. -/
theorem registry_matches_interest_set_witness :
    admissibleTrace (initialServer 3 true)
      [ServerOp.listenOp true true true, ServerOp.acceptOp 5,
       ServerOp.setHandlerOp 5, ServerOp.readyOp 5 true [],
       ServerOp.closeOp 5, ServerOp.shutdownOp, ServerOp.stopTaskOp] = true ∧
    registryInterestInvariant
      (runOps (initialServer 3 true)
        [ServerOp.listenOp true true true, ServerOp.acceptOp 5,
         ServerOp.setHandlerOp 5, ServerOp.readyOp 5 true [],
         ServerOp.closeOp 5, ServerOp.shutdownOp, ServerOp.stopTaskOp]).1 :=
  ⟨by decide,
   registry_matches_interest_set 3 true
     [ServerOp.listenOp true true true, ServerOp.acceptOp 5,
      ServerOp.setHandlerOp 5, ServerOp.readyOp 5 true [],
      ServerOp.closeOp 5, ServerOp.shutdownOp, ServerOp.stopTaskOp]
     (by decide)⟩

/-- C5 counterexample to the claim as stated: close a connection between
`shutdown` and the drain.  `removeSocket` is then a no-op (server no
longer running), so the close invalidates the entry's descriptor to `-1`
while leaving both the registry entry and the interest bit in place; the
drain in `stopTask` then clears the interest bit addressed by the
socket's current `_socketDescriptor` — which is `-1`, not the
descriptor — and clears the registry, leaving descriptor 5 in the
interest set with no registry entry. -/
theorem stale_interest_bit_after_drain :
    ¬ registryInterestInvariant
        (runOps (initialServer 3 true)
          [ServerOp.listenOp true true true, ServerOp.acceptOp 5,
           ServerOp.shutdownOp, ServerOp.closeOp 5, ServerOp.stopTaskOp]).1 := by
  intro hInv
  exact absurd ((hInv 5 (by decide)).mp (by decide)) (by decide)

end IDFixProtocols
